import Mathlib

/-!
Verification development for the session and signaling relay of the
videoo-call backend (src/backend/src/api/websocket.py), against the
natural-language specification of the repository.

The relay is embedded shallowly: the database tables of
src/backend/src/db/models.py become lists of rows, the module-level
Python dictionaries `active_connections` and `chat_messages` become
association lists with Python-dict insertion semantics, and each
handler of websocket.py becomes a pure function on a combined system
state.  Sending on a socket is recorded in a trace of
(handle, message) pairs; a per-handle failure oracle `failSet` models
`send_json` raising; a per-call Boolean models a persistence call
raising (the `except` branches of the source).
-/

namespace Videoo

/-! ## Python dict embedding

The source keeps registry and chat state in Python dicts.  A dict is
modelled as an association list ordered by insertion; `dictSet`
overwrites in place (keeping the key's position) or appends a fresh
key, exactly as CPython does. -/

def dictGet {α : Type} (d : List (String × α)) (k : String) : Option α :=
  (d.find? (fun p => p.1 == k)).map (fun p => p.2)

def dictContains {α : Type} (d : List (String × α)) (k : String) : Bool :=
  d.any (fun p => p.1 == k)

def dictSet {α : Type} (d : List (String × α)) (k : String) (v : α) :
    List (String × α) :=
  if dictContains d k then d.map (fun p => if p.1 == k then (k, v) else p)
  else d ++ [(k, v)]

def dictPop {α : Type} (d : List (String × α)) (k : String) : List (String × α) :=
  d.filter (fun p => p.1 != k)

/-! ## Data model (src/backend/src/db/models.py) -/

structure MeetingRow where
  id : String
  code : String
deriving DecidableEq

structure ParticipantRow where
  rowId : Nat
  meeting_id : String
  client_id : String
  display_name : Option String
  is_active : Bool
  is_host : Bool
  audio_enabled : Bool
  video_enabled : Bool
  screen_sharing : Bool
  left_at : Option Nat
deriving DecidableEq

structure LogRow where
  meeting_id : String
  participant_id : Option Nat
  event_type : String
deriving DecidableEq

structure DB where
  meetings : List MeetingRow
  participants : List ParticipantRow
  logs : List LogRow
deriving DecidableEq

/-- SQLAlchemy `Result.scalar_one_or_none`: `none` on zero rows, the row on
exactly one, and `MultipleResultsFound` (modelled as `Except.error`) on more. -/
def scalar_one_or_none {α : Type} (l : List α) : Except Unit (Option α) :=
  match l with
  | [] => Except.ok none
  | [a] => Except.ok (some a)
  | _ => Except.error ()

/-- Rows of the participants table matching
`select(Participant).where(Participant.client_id == client_id)` — the lookup
the relay uses everywhere, scoped by client id alone (no meeting or
active-flag filter). -/
def clientMatches (db : DB) (client_id : String) : List ParticipantRow :=
  db.participants.filter (fun p => p.client_id == client_id)

/-- Count of `select(func.count(Participant.id)).where(meeting_id).where(is_active)`
(websocket.py lines 55-60). -/
def countActive (db : DB) (meeting_id : String) : Nat :=
  db.participants.countP (fun p => p.meeting_id == meeting_id && p.is_active)

/-- First half of the join transition (websocket.py lines 55-61): read the
count of active participants.  The task may suspend between this read and
`joinInsert` (both are awaited database calls). -/
def joinRead (db : DB) (meeting_id : String) : Nat :=
  countActive db meeting_id

/-- Second half of the join transition (websocket.py lines 63-87): insert the
new participant row with `is_host` decided by the previously read count, plus
the join audit row.  The audit row's `participant_id` is the participant's
`id` attribute read before the flush, which is still unset, hence `none`. -/
def joinInsert (db : DB) (meeting_id client_id : String) (rid : Nat)
    (count : Nat) : DB :=
  { db with
    participants := db.participants ++
      [⟨rid, meeting_id, client_id, none, true, count == 0, true, true, false, none⟩],
    logs := db.logs ++ [⟨meeting_id, none, "join"⟩] }

/-- Database part of `handle_disconnect` (websocket.py lines 384-408): look the
participant up by client id alone, and if exactly one row matches, mark it
inactive with a leave timestamp and append the leave audit row.  Zero rows, a
`MultipleResultsFound`, or an injected failure all roll back to the unchanged
database. -/
def disconnectDb (db : DB) (client_id : String) (now : Nat) : DB :=
  match scalar_one_or_none (clientMatches db client_id) with
  | Except.error _ => db
  | Except.ok none => db
  | Except.ok (some participant) =>
    { db with
      participants := db.participants.map (fun p =>
        if p.rowId == participant.rowId then
          { p with is_active := false, left_at := some now }
        else p),
      logs := db.logs ++ [⟨participant.meeting_id, some participant.rowId, "leave"⟩] }

/-! ## Message vocabulary (src/backend/src/core/schemas.py) -/

namespace WSMessageType

def JOIN : String := "join"
def OFFER : String := "offer"
def ANSWER : String := "answer"
def ICE_CANDIDATE : String := "ice-candidate"
def USER_JOINED : String := "user-joined"
def USER_LEFT : String := "user-left"
def PARTICIPANTS_UPDATE : String := "participants-update"
def AUDIO_TOGGLE : String := "audio-toggle"
def VIDEO_TOGGLE : String := "video-toggle"
def SCREEN_SHARE_START : String := "screen-share-start"
def SCREEN_SHARE_STOP : String := "screen-share-stop"
def CHAT_MESSAGE : String := "chat-message"
def CHAT_HISTORY : String := "chat-history"

end WSMessageType

/-- Chat event as stored in `chat_messages` and echoed to the room
(websocket.py lines 246-252). -/
structure ChatData where
  from_client : String
  message : String
  displayName : String
  timestamp : Nat
deriving DecidableEq

/-- Entry of the `participantsData` array (websocket.py lines 205-216): the
full record in the success path, the id-only fallback when the database read
fails. -/
inductive PEntry where
  | full (clientId : String) (displayName : Option String)
      (audioEnabled videoEnabled screenSharing : Bool)
  | idOnly (clientId : String)
deriving DecidableEq

/-- Outbound wire messages the relay emits (one constructor per `send_json`
payload shape in websocket.py). -/
inductive OutMsg where
  | chatHistory (messages : List ChatData)
  | userJoined (clientId : String) (displayName : Option String) (timestamp : Nat)
  | participantsUpdate (participants : List String) (participantsData : List PEntry)
  | chatMessage (data : ChatData)
  | nameUpdate (clientId : String) (displayName : String)
  | mediaToggle (mtype : String) (clientId : String) (enabled : Bool)
  | screenShare (mtype : String) (clientId : String)
  | userLeft (clientId : String) (timestamp : Nat)
  | signal (mtype : Option String) (fromClient : String) (data : Option String)
deriving DecidableEq

abbrev Handle := Nat

abbrev RoomConns := List (String × Handle)

abbrev Registry := List (String × RoomConns)

/-- Whole-process state: the database plus the module-level dictionaries
`active_connections` and `chat_messages` of websocket.py, and the trace of
successful `send_json` calls. -/
structure SysState where
  db : DB
  active_connections : Registry
  chat_messages : List (String × List ChatData)
  trace : List (Handle × OutMsg)
deriving DecidableEq

/-- The `if exclude_client and client_id == exclude_client` test of
websocket.py line 371: `None` and the empty string are both falsy in Python,
so an empty-string exclude excludes nobody. -/
def excludeB (exclude_client : Option String) (client_id : String) : Bool :=
  match exclude_client with
  | none => false
  | some e => !(e == "") && client_id == e

/-- The `active_connections[meeting_code].pop(client_id, None)` in the
broadcast error branch (websocket.py lines 378-379), guarded by the room
containment check. -/
def popConnection (reg : Registry) (meeting_code client_id : String) : Registry :=
  if dictContains reg meeting_code then
    dictSet reg meeting_code
      (((dictGet reg meeting_code).getD []).filter (fun p => p.1 != client_id))
  else reg

/-- `broadcast_to_meeting` (websocket.py lines 363-379): snapshot the room's
connections, then attempt one `send_json` per non-excluded connection; a
failing handle (per `failSet`) is popped from the registry and the loop
continues with the next connection. -/
def broadcast_to_meeting (failSet : Handle → Bool) (reg : Registry)
    (meeting_code : String) (message : OutMsg) (exclude_client : Option String) :
    Registry × List (Handle × OutMsg) :=
  match dictGet reg meeting_code with
  | none => (reg, [])
  | some connections =>
    connections.foldl (fun acc p =>
      if excludeB exclude_client p.1 then acc
      else if failSet p.2 then (popConnection acc.1 meeting_code p.1, acc.2)
      else (acc.1, acc.2 ++ [(p.2, message)])) (reg, [])

/-- `handle_webrtc_signal` (websocket.py lines 225-241).  A missing (or, by
Python truthiness, empty) `target` is dropped with a warning (the Bool in the
result); if room and target are registered the signal is forwarded, and a
failing `send_json` raises out of the handler (`Except.error`). -/
def handle_webrtc_signal (failSet : Handle → Bool) (st : SysState)
    (meeting_code from_client : String) (target mtype mdata : Option String) :
    Except Unit (SysState × Bool) :=
  match target with
  | none => Except.ok (st, true)
  | some target_client =>
    if target_client == "" then Except.ok (st, true)
    else if dictContains st.active_connections meeting_code
        && dictContains ((dictGet st.active_connections meeting_code).getD [])
             target_client then
      match dictGet ((dictGet st.active_connections meeting_code).getD [])
          target_client with
      | some target_ws =>
        if failSet target_ws then Except.error ()
        else Except.ok
          ({ st with trace :=
              st.trace ++ [(target_ws, OutMsg.signal mtype from_client mdata)] },
           false)
      | none => Except.ok (st, false)
    else Except.ok (st, false)

/-- Chat payload built at websocket.py lines 246-252, with the `.get`
defaults for a missing `message` or `displayName` field. -/
def mkChatData (from_client : String) (msgText dispName : Option String)
    (now : Nat) : ChatData :=
  ⟨from_client, msgText.getD "", dispName.getD "Anonymous", now⟩

/-- `log_chat_message` (websocket.py lines 271-297): find the meeting by code,
then the participant by client id alone; a `MultipleResultsFound` rolls back,
a missing participant still logs the chat audit row with a null
participant id. -/
def log_chat_message (db : DB) (meeting_code from_client : String) : DB :=
  match scalar_one_or_none (db.meetings.filter (fun m => m.code == meeting_code)) with
  | Except.error _ => db
  | Except.ok none => db
  | Except.ok (some meeting) =>
    match scalar_one_or_none (clientMatches db from_client) with
    | Except.error _ => db
    | Except.ok po =>
      { db with logs := db.logs ++ [⟨meeting.id, po.map (fun p => p.rowId), "chat_message"⟩] }

/-- `handle_chat_message` (websocket.py lines 244-268): append to the in-memory
chat buffer, best-effort audit write (`pFail` models the persistence call
raising), then broadcast to the whole room with no exclusion. -/
def handle_chat_message (failSet : Handle → Bool) (st : SysState)
    (meeting_code from_client : String) (msgText dispName : Option String)
    (pFail : Bool) (now : Nat) : SysState :=
  let chat_data := mkChatData from_client msgText dispName now
  let chat1 := dictSet st.chat_messages meeting_code
    (((dictGet st.chat_messages meeting_code).getD []) ++ [chat_data])
  let db1 := if pFail then st.db else log_chat_message st.db meeting_code from_client
  let res := broadcast_to_meeting failSet st.active_connections meeting_code
    (OutMsg.chatMessage chat_data) none
  ⟨db1, res.1, chat1, st.trace ++ res.2⟩

/-- `handle_join_message` (websocket.py lines 300-323): nothing happens without
a `displayName` field; otherwise update the participant row found by client id
(rolled back on failure or skipped on zero or several rows) and broadcast the name update
to the others regardless. -/
def handle_join_message (failSet : Handle → Bool) (st : SysState)
    (meeting_code client_id : String) (displayNameField : Option String)
    (pFail : Bool) : SysState :=
  match displayNameField with
  | none => st
  | some display_name =>
    let db1 :=
      if pFail then st.db
      else match scalar_one_or_none (clientMatches st.db client_id) with
        | Except.error _ => st.db
        | Except.ok none => st.db
        | Except.ok (some participant) =>
          { st.db with participants := st.db.participants.map (fun p =>
              if p.rowId == participant.rowId then
                { p with display_name := some display_name }
              else p) }
    let res := broadcast_to_meeting failSet st.active_connections meeting_code
      (OutMsg.nameUpdate client_id display_name) (some client_id)
    ⟨db1, res.1, st.chat_messages, st.trace ++ res.2⟩

/-- `handle_media_toggle` (websocket.py lines 326-360): a missing `enabled`
field defaults to `true`; the participant row found by client id gets its flag
updated and an audit row appended (all rolled back on failure), and the toggle
is broadcast to the whole room, sender included, in every case. -/
def handle_media_toggle (failSet : Handle → Bool) (st : SysState)
    (meeting_code client_id : String) (enabledField : Option Bool)
    (media_type : String) (pFail : Bool) : SysState :=
  let enabled := enabledField.getD true
  let db1 :=
    if pFail then st.db
    else match scalar_one_or_none (clientMatches st.db client_id) with
      | Except.error _ => st.db
      | Except.ok none => st.db
      | Except.ok (some participant) =>
        { st.db with
          participants := st.db.participants.map (fun p =>
            if p.rowId == participant.rowId then
              (if media_type == "audio" then { p with audio_enabled := enabled }
               else { p with video_enabled := enabled })
            else p),
          logs := st.db.logs ++
            [⟨participant.meeting_id, some participant.rowId, media_type ++ "_toggle"⟩] }
  let message_type :=
    if media_type == "audio" then WSMessageType.AUDIO_TOGGLE
    else WSMessageType.VIDEO_TOGGLE
  let res := broadcast_to_meeting failSet st.active_connections meeting_code
    (OutMsg.mediaToggle message_type client_id enabled) none
  ⟨db1, res.1, st.chat_messages, st.trace ++ res.2⟩

/-- `handle_disconnect` (websocket.py lines 382-422): best-effort database
deactivation (failures swallowed), then pop the handle; if the room became
empty its registry entry is garbage-collected with no broadcast, otherwise the
remaining members get `user-left`.  The chat buffer is never touched. -/
def handle_disconnect (failSet : Handle → Bool) (st : SysState)
    (meeting_code client_id : String) (dbFail : Bool) (now : Nat) : SysState :=
  let db1 := if dbFail then st.db else disconnectDb st.db client_id now
  if dictContains st.active_connections meeting_code then
    let reg1 := dictSet st.active_connections meeting_code
      (((dictGet st.active_connections meeting_code).getD []).filter
        (fun p => p.1 != client_id))
    if ((dictGet reg1 meeting_code).getD []).isEmpty then
      ⟨db1, dictPop reg1 meeting_code, st.chat_messages, st.trace⟩
    else
      let res := broadcast_to_meeting failSet reg1 meeting_code
        (OutMsg.userLeft client_id now) none
      ⟨db1, res.1, st.chat_messages, st.trace ++ res.2⟩
  else ⟨db1, st.active_connections, st.chat_messages, st.trace⟩

/-- `send_participants_update`'s `participants_data` array (websocket.py lines
195-216): active rows of this meeting whose client id is currently registered,
in database order; on a failed read, the id-only fallback. -/
def participantsData (db : DB) (meeting_id : String)
    (participant_list : List String) (pdFail : Bool) : List PEntry :=
  if pdFail then participant_list.map PEntry.idOnly
  else ((db.participants.filter (fun p => p.meeting_id == meeting_id && p.is_active)).filter
      (fun p => participant_list.any (fun c => c == p.client_id))).map
    (fun p => PEntry.full p.client_id p.display_name p.audio_enabled
      p.video_enabled p.screen_sharing)

/-- `send_participants_update` (websocket.py lines 191-222): one `send_json`
to the given socket with the registered client list and their data. -/
def send_participants_update (st : SysState) (h : Handle)
    (meeting_code meeting_id : String) (pdFail : Bool) : SysState :=
  let participant_list := ((dictGet st.active_connections meeting_code).getD []).map
    (fun p => p.1)
  let pdata := participantsData st.db meeting_id participant_list pdFail
  { st with trace := st.trace ++ [(h, OutMsg.participantsUpdate participant_list pdata)] }

/-- Lines 100-139 of `handle_websocket`: register the handle (creating the
room's sub-table on first entry), initialize the chat buffer, send the chat
history to the new socket, broadcast `user-joined` to the others, and send the
participants update to the new socket. -/
def registerAndGreet (failSet : Handle → Bool) (st : SysState)
    (meeting : MeetingRow) (client_id : String) (h : Handle)
    (dnFail pdFail : Bool) (now : Nat) : SysState :=
  let reg1 := dictSet st.active_connections meeting.code
    (dictSet ((dictGet st.active_connections meeting.code).getD []) client_id h)
  let chat1 :=
    if dictContains st.chat_messages meeting.code then st.chat_messages
    else dictSet st.chat_messages meeting.code []
  let buffer := (dictGet chat1 meeting.code).getD []
  let trace1 := st.trace ++ [(h, OutMsg.chatHistory buffer)]
  let display_name :=
    if dnFail then none
    else match scalar_one_or_none (clientMatches st.db client_id) with
      | Except.error _ => none
      | Except.ok none => none
      | Except.ok (some p) => p.display_name
  let res := broadcast_to_meeting failSet reg1 meeting.code
    (OutMsg.userJoined client_id display_name now) (some client_id)
  send_participants_update ⟨st.db, res.1, chat1, trace1 ++ res.2⟩ h
    meeting.code meeting.id pdFail

/-- Result of the setup portion of `handle_websocket` (websocket.py lines
41-98): policy-violation close 1008 when the meeting is absent, internal-error
close 1011 when persistence fails while creating the participant record,
otherwise the meeting row and the database extended with the new participant
and join audit row. -/
inductive SetupResult where
  | closedPolicy
  | closedInternal
  | ok (meeting : MeetingRow) (db : DB)
deriving DecidableEq

def websocket_setup (db : DB) (meeting_code client_id : String) (rid : Nat)
    (dbFail : Bool) : SetupResult :=
  match scalar_one_or_none (db.meetings.filter (fun m => m.code == meeting_code)) with
  | Except.error _ => SetupResult.closedInternal
  | Except.ok none => SetupResult.closedPolicy
  | Except.ok (some meeting) =>
    if dbFail then SetupResult.closedInternal
    else SetupResult.ok meeting
      (joinInsert db meeting.id client_id rid (joinRead db meeting.id))

/-- One inbound frame of the message loop: either text that
`json.loads`/`message.get` cannot process (which raises), or a parsed message
with its optional fields. -/
inductive Inbound where
  | malformed
  | msg (mtype : Option String) (target mdata msgText dispName : Option String)
      (enabled : Option Bool)
deriving DecidableEq

/-- One iteration of the message loop dispatch (websocket.py lines 141-181).
`Except.error` means the iteration raised, which exits the loop. -/
def loopStep (failSet : Handle → Bool) (st : SysState)
    (meeting_code client_id : String) (inb : Inbound) (pFail : Bool)
    (now : Nat) : Except Unit SysState :=
  match inb with
  | Inbound.malformed => Except.error ()
  | Inbound.msg mtype target mdata msgText dispName enabled =>
    if mtype == some WSMessageType.OFFER || mtype == some WSMessageType.ANSWER
        || mtype == some WSMessageType.ICE_CANDIDATE then
      Except.map (fun r => r.1)
        (handle_webrtc_signal failSet st meeting_code client_id target mtype mdata)
    else if mtype == some WSMessageType.CHAT_MESSAGE then
      Except.ok (handle_chat_message failSet st meeting_code client_id msgText
        dispName pFail now)
    else if mtype == some WSMessageType.JOIN then
      Except.ok (handle_join_message failSet st meeting_code client_id dispName pFail)
    else if mtype == some WSMessageType.AUDIO_TOGGLE then
      Except.ok (handle_media_toggle failSet st meeting_code client_id enabled
        "audio" pFail)
    else if mtype == some WSMessageType.VIDEO_TOGGLE then
      Except.ok (handle_media_toggle failSet st meeting_code client_id enabled
        "video" pFail)
    else if mtype == some WSMessageType.SCREEN_SHARE_START then
      let res := broadcast_to_meeting failSet st.active_connections meeting_code
        (OutMsg.screenShare WSMessageType.SCREEN_SHARE_START client_id)
        (some client_id)
      Except.ok ⟨st.db, res.1, st.chat_messages, st.trace ++ res.2⟩
    else if mtype == some WSMessageType.SCREEN_SHARE_STOP then
      let res := broadcast_to_meeting failSet st.active_connections meeting_code
        (OutMsg.screenShare WSMessageType.SCREEN_SHARE_STOP client_id)
        (some client_id)
      Except.ok ⟨st.db, res.1, st.chat_messages, st.trace ++ res.2⟩
    else Except.ok st

/-- The message loop of `handle_websocket` (lines 141-188): process inbound
frames until one raises or the socket closes (end of input); either way the
`finally` block runs `handle_disconnect`. -/
def messageLoop (failSet : Handle → Bool) (st : SysState)
    (meeting_code client_id : String) (inputs : List Inbound) (now : Nat) :
    SysState :=
  match inputs with
  | [] => handle_disconnect failSet st meeting_code client_id false now
  | inb :: rest =>
    match loopStep failSet st meeting_code client_id inb false now with
    | Except.error _ => handle_disconnect failSet st meeting_code client_id false now
    | Except.ok st1 => messageLoop failSet st1 meeting_code client_id rest now

/-- Whole connection lifetime `handle_websocket` (websocket.py lines 24-188):
setup, then registration and greeting, then the message loop with its
`finally` cleanup.  The second component is the close code sent on refusal. -/
def handle_websocket (failSet : Handle → Bool) (st : SysState)
    (meeting_code client_id : String) (h : Handle) (rid : Nat)
    (dbFail dnFail pdFail : Bool) (now : Nat) (inputs : List Inbound) :
    SysState × Option Nat :=
  match websocket_setup st.db meeting_code client_id rid dbFail with
  | SetupResult.closedPolicy => (st, some 1008)
  | SetupResult.closedInternal => (st, some 1011)
  | SetupResult.ok meeting db1 =>
    let st1 := registerAndGreet failSet ⟨db1, st.active_connections,
      st.chat_messages, st.trace⟩ meeting client_id h dnFail pdFail now
    (messageLoop failSet st1 meeting_code client_id inputs now, none)

/-! ## Host-election transition system (claim C1)

A join transition is the two database steps `joinRead` then `joinInsert` of
`handle_websocket`; in the serialized transition system below they run
back-to-back.  The interleaved schedule, where a second joiner performs its
`joinRead` before the first joiner's `joinInsert` commits, is exhibited
separately as a concrete race. -/

inductive RelayOp where
  | join (meeting_id client_id : String) (rid : Nat)
  | disconnect (client_id : String) (dbFail : Bool) (now : Nat)

def applyOp (db : DB) (op : RelayOp) : DB :=
  match op with
  | RelayOp.join mid cid rid => joinInsert db mid cid rid (joinRead db mid)
  | RelayOp.disconnect cid dbFail now => if dbFail then db else disconnectDb db cid now

/-- Number of active participants of the meeting whose host flag is set. -/
def activeHostCount (db : DB) (meeting_id : String) : Nat :=
  db.participants.countP
    (fun p => p.meeting_id == meeting_id && p.is_active && p.is_host)

/-- The host invariant of spec section 3: within one room, at most one active
participant has host=true. -/
def hostInvariant (db : DB) : Prop :=
  ∀ meeting_id : String, activeHostCount db meeting_id ≤ 1

/-- Interleaved double-join schedule: both joiners run `joinRead` against the
empty meeting (both awaited counts return 0), then both run `joinInsert`.
This is the check-then-act race of websocket.py lines 55-87. -/
def raceState : DB :=
  let db0 : DB := ⟨[⟨"m1", "abc1234567"⟩], [], []⟩
  let c1 := joinRead db0 "m1"
  let c2 := joinRead db0 "m1"
  let db1 := joinInsert db0 "m1" "A" 1 c1
  joinInsert db1 "m1" "B" 2 c2

/-- Messages delivered to one handle, in order, from a send trace. -/
def deliveredTo (h : Handle) (trace : List (Handle × OutMsg)) : List OutMsg :=
  trace.filterMap (fun e => if e.1 == h then some e.2 else none)

/-! ## Library lemmas about the dict embedding -/

theorem dictContains_of_get {α : Type} {d : List (String × α)} {k : String} {v : α}
    (h : dictGet d k = some v) : dictContains d k = true := by
  unfold dictGet at h
  cases hf : d.find? (fun p => p.1 == k) with
  | none => rw [hf] at h; simp at h
  | some pr =>
    unfold dictContains
    rw [List.any_eq_true]
    have hp := List.find?_some (p := fun p => p.1 == k) (a := pr) hf
    exact ⟨pr, List.mem_of_find?_eq_some hf, hp⟩

theorem dictContains_eq_false {α : Type} {d : List (String × α)} {k : String}
    (h : ∀ p ∈ d, p.1 ≠ k) : dictContains d k = false := by
  unfold dictContains
  rw [List.any_eq_false]
  intro p hp
  simp only [beq_iff_eq]
  exact h p hp

theorem dictSet_fresh {α : Type} {d : List (String × α)} {k : String} (v : α)
    (h : ∀ p ∈ d, p.1 ≠ k) : dictSet d k v = d ++ [(k, v)] := by
  unfold dictSet
  rw [dictContains_eq_false h]
  simp

theorem dictGet_append_fresh {α : Type} {d : List (String × α)} {k : String} (v : α)
    (h : ∀ p ∈ d, p.1 ≠ k) : dictGet (d ++ [(k, v)]) k = some v := by
  induction d with
  | nil => simp [dictGet, List.find?]
  | cons a t ih =>
    have ha : (a.1 == k) = false := by
      simp only [beq_eq_false_iff_ne]
      exact h a (List.mem_cons_self a t)
    simp only [List.cons_append, dictGet, List.find?, ha]
    exact ih (fun p hp => h p (List.mem_cons_of_mem a hp))

theorem dictGet_map_set_self {α : Type} {d : List (String × α)} {k : String} (v : α)
    (h : dictContains d k = true) :
    dictGet (d.map (fun p => if p.1 == k then (k, v) else p)) k = some v := by
  induction d with
  | nil => simp [dictContains] at h
  | cons a t ih =>
    cases hk : (a.1 == k) with
    | true => simp [dictGet, List.find?, hk]
    | false =>
      have ht : dictContains t k = true := by
        unfold dictContains at h ⊢
        rw [List.any_cons, hk] at h
        simpa using h
      have ih' := ih ht
      unfold dictGet at ih' ⊢
      simp only [List.map_cons, hk, Bool.false_eq_true, if_false]
      rw [List.find?_cons_of_neg _ (by simp [hk])]
      exact ih'

theorem dictGet_dictSet_self {α : Type} (d : List (String × α)) (k : String) (v : α) :
    dictGet (dictSet d k v) k = some v := by
  unfold dictSet
  cases hc : dictContains d k with
  | false =>
    simp only [Bool.false_eq_true, if_false]
    apply dictGet_append_fresh
    intro p hp
    unfold dictContains at hc
    rw [List.any_eq_false] at hc
    have := hc p hp
    simpa using this
  | true =>
    simp only [if_true]
    exact dictGet_map_set_self v hc

theorem dictGet_map_set_other {α : Type} (d : List (String × α)) {k k2 : String}
    (v : α) (hne : k2 ≠ k) :
    dictGet (d.map (fun p => if p.1 == k then (k, v) else p)) k2 = dictGet d k2 := by
  induction d with
  | nil => rfl
  | cons a t ih =>
    unfold dictGet at ih ⊢
    simp only [List.map_cons]
    cases hk : (a.1 == k) with
    | true =>
      have ha : a.1 = k := by simpa using hk
      simp only [hk, if_true]
      rw [List.find?_cons_of_neg _ (by simp; exact fun h => hne h.symm),
          List.find?_cons_of_neg _ (by simp [ha]; exact fun h => hne h.symm)]
      exact ih
    | false =>
      simp only [hk, Bool.false_eq_true, if_false]
      cases hk2 : (a.1 == k2) with
      | true =>
        rw [List.find?_cons_of_pos _ (by simp [hk2]),
            List.find?_cons_of_pos _ (by simp [hk2])]
      | false =>
        rw [List.find?_cons_of_neg _ (by simp [hk2]),
            List.find?_cons_of_neg _ (by simp [hk2])]
        exact ih

theorem dictGet_dictSet_other {α : Type} (d : List (String × α)) {k k2 : String}
    (v : α) (hne : k2 ≠ k) : dictGet (dictSet d k v) k2 = dictGet d k2 := by
  unfold dictSet
  cases hc : dictContains d k with
  | true =>
    simp only [if_true]
    exact dictGet_map_set_other d v hne
  | false =>
    simp only [Bool.false_eq_true, if_false]
    unfold dictGet
    rw [List.find?_append]
    have hnone : List.find? (fun p => p.1 == k2) [(k, v)] = none := by
      rw [List.find?_cons_of_neg _ (by simp; exact fun h => hne h.symm)]
      rfl
    rw [hnone, Option.or_none]

theorem dictGet_dictPop_self {α : Type} (d : List (String × α)) (k : String) :
    dictGet (dictPop d k) k = none := by
  induction d with
  | nil => rfl
  | cons a t ih =>
    unfold dictPop at ih ⊢
    rw [List.filter_cons]
    cases hk : (a.1 == k) with
    | true =>
      simp only [bne, hk, Bool.not_true, Bool.false_eq_true, if_false]
      exact ih
    | false =>
      simp only [bne, hk, Bool.not_false, if_true]
      unfold dictGet at ih ⊢
      rw [List.find?_cons_of_neg _ (by simp [hk])]
      exact ih

theorem deliveredTo_append (h : Handle) (t1 t2 : List (Handle × OutMsg)) :
    deliveredTo h (t1 ++ t2) = deliveredTo h t1 ++ deliveredTo h t2 := by
  unfold deliveredTo
  exact List.filterMap_append t1 t2 _

theorem deliveredTo_map_snd (h : Handle) (S : RoomConns) (m : OutMsg) :
    deliveredTo h (S.map (fun p => (p.2, m))) =
      List.replicate (S.countP (fun p => p.2 == h)) m := by
  induction S with
  | nil => rfl
  | cons a t ih =>
    unfold deliveredTo at ih ⊢
    simp only [List.map_cons, List.filterMap_cons]
    cases hk : (a.2 == h) with
    | true =>
      simp only [hk, if_true]
      rw [List.countP_cons_of_pos _ _ (by simp [hk]), List.replicate_succ]
      rw [ih]
    | false =>
      simp only [hk, Bool.false_eq_true, if_false]
      rw [List.countP_cons_of_neg _ _ (by simp [hk])]
      exact ih

/-! ## Characterizations of `broadcast_to_meeting` -/

/-- With no delivery failures, the broadcast loop leaves the registry alone
and sends the message, in room order, to every non-excluded connection. -/
theorem broadcast_go_nofail (meeting_code : String) (m : OutMsg)
    (ex : Option String) :
    ∀ (S : RoomConns) (reg : Registry) (tr : List (Handle × OutMsg)),
    S.foldl (fun acc p =>
      if excludeB ex p.1 then acc
      else if (fun _ => false : Handle → Bool) p.2 then
        (popConnection acc.1 meeting_code p.1, acc.2)
      else (acc.1, acc.2 ++ [(p.2, m)])) (reg, tr) =
    (reg, tr ++ (S.filter (fun p => !(excludeB ex p.1))).map (fun p => (p.2, m))) := by
  intro S
  induction S with
  | nil => intro reg tr; simp
  | cons p S ih =>
    intro reg tr
    rw [List.foldl_cons, List.filter_cons]
    cases hex : excludeB ex p.1 with
    | true =>
      simp only [hex, if_true, Bool.not_true, Bool.false_eq_true, if_false]
      exact ih reg tr
    | false =>
      simp only [hex, Bool.false_eq_true, if_false, Bool.not_false, if_true,
        List.map_cons]
      exact (ih reg (tr ++ [(p.2, m)])).trans (by simp)

/-- The broadcast loop decomposed: the trace gains one send per non-excluded
non-failing connection, and the registry undergoes the sequence of pops of the
failing non-excluded ones. -/
theorem broadcast_go (failSet : Handle → Bool) (meeting_code : String)
    (m : OutMsg) (ex : Option String) :
    ∀ (S : RoomConns) (reg : Registry) (tr : List (Handle × OutMsg)),
    S.foldl (fun acc p =>
      if excludeB ex p.1 then acc
      else if failSet p.2 then (popConnection acc.1 meeting_code p.1, acc.2)
      else (acc.1, acc.2 ++ [(p.2, m)])) (reg, tr) =
    (S.foldl (fun r p =>
        if excludeB ex p.1 then r
        else if failSet p.2 then popConnection r meeting_code p.1 else r) reg,
     tr ++ (S.filter (fun p => !(excludeB ex p.1) && !(failSet p.2))).map
        (fun p => (p.2, m))) := by
  intro S
  induction S with
  | nil => intro reg tr; simp
  | cons p S ih =>
    intro reg tr
    rw [List.foldl_cons, List.foldl_cons, List.filter_cons]
    cases hex : excludeB ex p.1 with
    | true =>
      simp only [hex, if_true, Bool.not_true, Bool.false_and, Bool.false_eq_true,
        if_false]
      exact ih reg tr
    | false =>
      cases hf : failSet p.2 with
      | true =>
        simp only [hex, hf, Bool.false_eq_true, if_false, if_true, Bool.not_false,
          Bool.not_true, Bool.true_and, Bool.and_false]
        exact ih (popConnection reg meeting_code p.1) tr
      | false =>
        simp only [hex, hf, Bool.false_eq_true, if_false, Bool.not_false,
          Bool.true_and, Bool.and_true, if_true, List.map_cons]
        rw [ih reg (tr ++ [(p.2, m)])]
        simp

theorem popConnection_get {reg : Registry} {meeting_code : String}
    {cur : RoomConns} (cid : String)
    (hget : dictGet reg meeting_code = some cur) :
    dictGet (popConnection reg meeting_code cid) meeting_code =
      some (cur.filter (fun q => q.1 != cid)) := by
  unfold popConnection
  rw [dictContains_of_get hget]
  simp only [if_true]
  rw [hget]
  exact dictGet_dictSet_self _ _ _

theorem popConnection_get_other {reg : Registry} {meeting_code k : String}
    (cid : String) (hne : k ≠ meeting_code) :
    dictGet (popConnection reg meeting_code cid) k = dictGet reg k := by
  unfold popConnection
  cases hc : dictContains reg meeting_code with
  | true =>
    simp only [if_true]
    exact dictGet_dictSet_other _ _ hne
  | false => simp

/-- The sequence of pops the broadcast loop performs only rewrites the room's
own entry, by the corresponding fold on the room's connection list. -/
theorem fold_room_get (failSet : Handle → Bool) (meeting_code : String)
    (ex : Option String) :
    ∀ (S : RoomConns) (reg : Registry) (cur : RoomConns),
    dictGet reg meeting_code = some cur →
    dictGet (S.foldl (fun r p =>
        if excludeB ex p.1 then r
        else if failSet p.2 then popConnection r meeting_code p.1 else r) reg)
      meeting_code =
      some (S.foldl (fun c p =>
        if excludeB ex p.1 then c
        else if failSet p.2 then c.filter (fun q => q.1 != p.1) else c) cur)
    ∧ ∀ k, k ≠ meeting_code →
      dictGet (S.foldl (fun r p =>
        if excludeB ex p.1 then r
        else if failSet p.2 then popConnection r meeting_code p.1 else r) reg) k =
      dictGet reg k := by
  intro S
  induction S with
  | nil => intro reg cur hget; exact ⟨hget, fun k hk => rfl⟩
  | cons p S ih =>
    intro reg cur hget
    rw [List.foldl_cons, List.foldl_cons]
    cases hex : excludeB ex p.1 with
    | true =>
      simp only [hex, if_true]
      exact ih reg cur hget
    | false =>
      cases hf : failSet p.2 with
      | false =>
        simp only [hex, hf, Bool.false_eq_true, if_false]
        exact ih reg cur hget
      | true =>
        simp only [hex, hf, Bool.false_eq_true, if_false, if_true]
        have hget2 := popConnection_get p.1 hget
        obtain ⟨h1, h2⟩ := ih (popConnection reg meeting_code p.1)
          (cur.filter (fun q => q.1 != p.1)) hget2
        refine ⟨h1, fun k hk => ?_⟩
        rw [h2 k hk]
        exact popConnection_get_other p.1 hk

/-- Folding the pops over an arbitrary association list filters out every
entry whose key matches some failing, non-excluded member of the snapshot. -/
theorem roomFold_filter (failSet : Handle → Bool) (ex : Option String) :
    ∀ (S C : RoomConns),
    S.foldl (fun c p =>
      if excludeB ex p.1 then c
      else if failSet p.2 then c.filter (fun q => q.1 != p.1) else c) C =
    C.filter (fun q =>
      !(S.any (fun p => !(excludeB ex p.1) && failSet p.2 && p.1 == q.1))) := by
  intro S
  induction S with
  | nil => intro C; simp
  | cons p S ih =>
    intro C
    rw [List.foldl_cons]
    cases hex : excludeB ex p.1 with
    | true =>
      simp only [hex, if_true]
      rw [ih C]
      apply List.filter_congr
      intro q _
      simp [hex]
    | false =>
      cases hf : failSet p.2 with
      | false =>
        simp only [hex, hf, Bool.false_eq_true, if_false]
        rw [ih C]
        apply List.filter_congr
        intro q _
        simp [hex, hf]
      | true =>
        simp only [hex, hf, Bool.false_eq_true, if_false, if_true]
        rw [ih (C.filter (fun q => q.1 != p.1)), List.filter_filter]
        apply List.filter_congr
        intro q _
        simp only [List.any_cons, hex, hf, Bool.not_false, Bool.true_and,
          Bool.and_true, Bool.not_or, bne]
        rw [show ((q.1 == p.1) : Bool) = (p.1 == q.1) from Bool.beq_comm]
        exact Bool.and_comm _ _

/-- In an association list with pairwise-distinct keys, two members sharing a
key are the same member. -/
theorem keyUnique : ∀ (C : RoomConns), (C.map Prod.fst).Nodup →
    ∀ p ∈ C, ∀ q ∈ C, p.1 = q.1 → p = q := by
  intro C
  induction C with
  | nil => intro _ p hp; exact absurd hp (List.not_mem_nil p)
  | cons a t ih =>
    intro hnd p hp q hq hpq
    rw [List.map_cons, List.nodup_cons] at hnd
    rcases List.mem_cons.mp hp with rfl | hp2
    · rcases List.mem_cons.mp hq with rfl | hq2
      · rfl
      · exact absurd (hpq ▸ List.mem_map_of_mem Prod.fst hq2) hnd.1
    · rcases List.mem_cons.mp hq with rfl | hq2
      · exact absurd (hpq ▸ List.mem_map_of_mem Prod.fst hp2) hnd.1
      · exact ih hnd.2 p hp2 q hq2 hpq

/-- With pairwise-distinct keys, scanning the snapshot for an entry whose key
matches `q` finds exactly `q` itself. -/
theorem anyKey_eq (f : String × Handle → Bool) :
    ∀ (C : RoomConns), (C.map Prod.fst).Nodup →
    ∀ q ∈ C, C.any (fun p => f p && p.1 == q.1) = f q := by
  intro C hnd q hq
  cases hfq : f q with
  | true =>
    rw [List.any_eq_true]
    exact ⟨q, hq, by simp [hfq]⟩
  | false =>
    rw [List.any_eq_false]
    intro p hp hcontra
    simp only [Bool.and_eq_true, beq_iff_eq] at hcontra
    have := keyUnique C hnd p hp q hq hcontra.2
    rw [this, hfq] at hcontra
    exact Bool.false_ne_true hcontra.1

/-- Failure-free broadcast: the registry is untouched and the message goes, in
room order, to exactly the non-excluded connections. -/
theorem broadcast_nofail {reg : Registry} {meeting_code : String} (m : OutMsg)
    (ex : Option String) {conns : RoomConns}
    (hget : dictGet reg meeting_code = some conns) :
    broadcast_to_meeting (fun _ => false) reg meeting_code m ex =
      (reg, (conns.filter (fun p => !(excludeB ex p.1))).map (fun p => (p.2, m))) := by
  unfold broadcast_to_meeting
  rw [hget]
  exact (broadcast_go_nofail meeting_code m ex conns reg []).trans (by simp)

/-- Full characterization of one broadcast when the room's keys are distinct
(which every reachable registry satisfies, being a Python dict): the message
is sent exactly once to each non-excluded connection whose handle does not
fail, the failing non-excluded connections are dropped from the room's entry,
and every other key of the registry is untouched. -/
theorem broadcast_spec (failSet : Handle → Bool) {reg : Registry}
    {meeting_code : String} (m : OutMsg) (ex : Option String) {conns : RoomConns}
    (hget : dictGet reg meeting_code = some conns)
    (hkeys : (conns.map Prod.fst).Nodup) :
    (broadcast_to_meeting failSet reg meeting_code m ex).2 =
      (conns.filter (fun p => !(excludeB ex p.1) && !(failSet p.2))).map
        (fun p => (p.2, m))
    ∧ dictGet (broadcast_to_meeting failSet reg meeting_code m ex).1 meeting_code =
      some (conns.filter (fun p => excludeB ex p.1 || !(failSet p.2)))
    ∧ ∀ k, k ≠ meeting_code →
      dictGet (broadcast_to_meeting failSet reg meeting_code m ex).1 k =
        dictGet reg k := by
  have heq : broadcast_to_meeting failSet reg meeting_code m ex =
      (conns.foldl (fun r p =>
          if excludeB ex p.1 then r
          else if failSet p.2 then popConnection r meeting_code p.1 else r) reg,
       (conns.filter (fun p => !(excludeB ex p.1) && !(failSet p.2))).map
         (fun p => (p.2, m))) := by
    unfold broadcast_to_meeting
    rw [hget]
    exact (broadcast_go failSet meeting_code m ex conns reg []).trans (by simp)
  rw [heq]
  obtain ⟨h1, h2⟩ := fold_room_get failSet meeting_code ex conns reg conns hget
  refine ⟨rfl, ?_, h2⟩
  rw [h1, roomFold_filter failSet ex conns conns]
  congr 1
  apply List.filter_congr
  intro q hq
  rw [anyKey_eq (fun p => !(excludeB ex p.1) && failSet p.2) conns hkeys q hq]
  cases hex : excludeB ex q.1 <;> cases hf : failSet q.2 <;> simp [hex, hf]

/-! ## Host invariant preservation (claim C1) -/

theorem activeHostCount_le_countActive (db : DB) (meeting_id : String) :
    activeHostCount db meeting_id ≤ countActive db meeting_id := by
  unfold activeHostCount countActive
  apply List.countP_mono_left
  intro p _ hp
  simp only [Bool.and_eq_true] at hp ⊢
  exact hp.1

theorem activeHostCount_joinInsert (db : DB) (mid cid : String) (rid : Nat)
    (mid' : String) (hinv : hostInvariant db) :
    activeHostCount (joinInsert db mid cid rid (joinRead db mid)) mid' ≤ 1 := by
  have hbase := hinv mid'
  have hle := activeHostCount_le_countActive db mid'
  unfold activeHostCount at hbase hle ⊢
  unfold countActive at hle
  unfold joinInsert
  simp only [List.countP_append, List.countP_cons, List.countP_nil, Nat.zero_add]
  cases hm : (mid == mid') with
  | false =>
    rw [if_neg (show ¬((false && true && (joinRead db mid == 0)) = true) from
      fun h => Bool.false_ne_true h)]
    omega
  | true =>
    cases hz : ((joinRead db mid == 0) : Bool) with
    | true =>
      have hmeq : mid = mid' := by simpa using hm
      have hzeq : List.countP
          (fun p => p.meeting_id == mid' && p.is_active) db.participants = 0 := by
        have h0 : countActive db mid = 0 := by simpa [joinRead] using hz
        unfold countActive at h0
        rw [← hmeq]
        exact h0
      rw [if_pos (show ((true && true && (true : Bool)) = true) from rfl)]
      omega
    | false =>
      rw [if_neg (show ¬((true && true && (false : Bool)) = true) by decide)]
      omega

theorem activeHostCount_disconnectDb_le (db : DB) (cid : String) (now : Nat)
    (mid : String) :
    activeHostCount (disconnectDb db cid now) mid ≤ activeHostCount db mid := by
  unfold disconnectDb
  cases scalar_one_or_none (clientMatches db cid) with
  | error e => exact Nat.le_refl _
  | ok po =>
    cases po with
    | none => exact Nat.le_refl _
    | some participant =>
      unfold activeHostCount
      simp only
      rw [List.countP_map]
      apply List.countP_mono_left
      intro x _ hx
      simp only [Function.comp] at hx
      by_cases hid : (x.rowId == participant.rowId) = true
      · simp [hid] at hx
      · have hid' : (x.rowId == participant.rowId) = false := by
          cases h : (x.rowId == participant.rowId) with
          | true => exact absurd h hid
          | false => rfl
        simpa [hid'] using hx

theorem hostInvariant_applyOp (db : DB) (op : RelayOp)
    (hinv : hostInvariant db) : hostInvariant (applyOp db op) := by
  cases op with
  | join mid cid rid =>
    intro mid'
    exact activeHostCount_joinInsert db mid cid rid mid' hinv
  | disconnect cid dbFail now =>
    unfold applyOp
    cases dbFail with
    | true => exact hinv
    | false =>
      intro mid
      exact Nat.le_trans (activeHostCount_disconnectDb_le db cid now mid) (hinv mid)

/-- In a connection list with pairwise-distinct handles, two members sharing a
handle are the same member. -/
theorem handleUnique : ∀ (C : RoomConns), (C.map Prod.snd).Nodup →
    ∀ p ∈ C, ∀ q ∈ C, p.2 = q.2 → p = q := by
  intro C
  induction C with
  | nil => intro _ p hp; exact absurd hp (List.not_mem_nil p)
  | cons a t ih =>
    intro hnd p hp q hq hpq
    rw [List.map_cons, List.nodup_cons] at hnd
    rcases List.mem_cons.mp hp with rfl | hp2
    · rcases List.mem_cons.mp hq with rfl | hq2
      · rfl
      · exact absurd (hpq ▸ List.mem_map_of_mem Prod.snd hq2) hnd.1
    · rcases List.mem_cons.mp hq with rfl | hq2
      · exact absurd (hpq ▸ List.mem_map_of_mem Prod.snd hp2) hnd.1
      · exact ih hnd.2 p hp2 q hq2 hpq

/-- With pairwise-distinct handles, counting the members that carry `p`'s
handle and satisfy `keep` counts `p` alone. -/
theorem countP_handle (keep : String × Handle → Bool) :
    ∀ (C : RoomConns), (C.map Prod.snd).Nodup → ∀ p ∈ C,
    C.countP (fun q => (q.2 == p.2) && keep q) = if keep p then 1 else 0 := by
  intro C
  induction C with
  | nil => intro _ p hp; exact absurd hp (List.not_mem_nil p)
  | cons a t ih =>
    intro hnd p hp
    rw [List.map_cons, List.nodup_cons] at hnd
    rw [List.countP_cons]
    rcases List.mem_cons.mp hp with rfl | hp2
    · have ht : t.countP (fun q => (q.2 == p.2) && keep q) = 0 := by
        rw [List.countP_eq_zero]
        intro q hq hcontra
        simp only [Bool.and_eq_true, beq_iff_eq] at hcontra
        exact hnd.1 (hcontra.1 ▸ List.mem_map_of_mem Prod.snd hq)
      rw [ht]
      cases hk : keep p with
      | true => simp [hk]
      | false => simp [hk]
    · have ha : ((a.2 == p.2) && keep a) = false := by
        cases hpq : (a.2 == p.2) with
        | false => rfl
        | true =>
          have : a.2 = p.2 := by simpa using hpq
          exact absurd (this ▸ List.mem_map_of_mem Prod.snd hp2) hnd.1
      rw [ha]
      simp only [Bool.false_eq_true, if_false, Nat.add_zero]
      exact ih hnd.2 p hp2

/-! ## Claim theorems -/

/-- C1, counterexample.  The claim asserts the host invariant holds for every
sequence of join transitions with interleaving permitted at each suspension
point.  It does not: in `raceState` two joiners of room m1 both run the
count-active read of `handle_websocket` (lines 55-61) against the empty room,
then both run the insert (lines 63-87), so both rows are created active with
host=true and the room has two active hosts. -/
theorem C1_host_race_counterexample : ¬ hostInvariant raceState :=
  fun hinv => absurd (hinv "m1") (by decide)

/-- C1, amended: if the join transitions are serialized — each join's
count-active-then-insert runs atomically, with no other join interleaved
between the read and the insert — then for every initial database satisfying
the host invariant and every sequence of join and disconnect transitions, each
room keeps at most one active participant with host=true. -/
theorem C1_host_invariant_serialized (db : DB) (ops : List RelayOp)
    (hinv : hostInvariant db) : hostInvariant (ops.foldl applyOp db) := by
  induction ops generalizing db with
  | nil => exact hinv
  | cons op ops ih => exact ih (applyOp db op) (hostInvariant_applyOp db op hinv)

/-- C1 witness: the serialized invariant theorem applied to a concrete run —
two joins into room m1 followed by the host's disconnect. -/
theorem C1_host_invariant_serialized_witness :
    hostInvariant (List.foldl applyOp ⟨[⟨"m1", "abc1234567"⟩], [], []⟩
      [RelayOp.join "m1" "A" 1, RelayOp.join "m1" "B" 2,
       RelayOp.disconnect "A" false 5]) :=
  C1_host_invariant_serialized _ _ (by intro mid; simp [activeHostCount])

/-- C2, counterexample.  The claim asserts that for every room state and
exclusion, broadcast delivers to every registered client except the excluded
one.  With the empty string registered as a client id and passed as the
exclusion, the source's `if exclude_client and client_id == exclude_client`
test (line 371) sees a falsy string and skips the exclusion, so the supposedly
excluded client's handle 7 still receives the message. -/
theorem C2_empty_exclude_counterexample :
    (broadcast_to_meeting (fun _ => false) [("R", [("", 7)])] "R"
      (OutMsg.chatMessage ⟨"x", "hi", "X", 0⟩) (some "")).2 =
      [(7, OutMsg.chatMessage ⟨"x", "hi", "X", 0⟩)] := by decide

/-- C2, amended: for every room state whose room entry has distinct client
keys and distinct handles, `broadcast_to_meeting` attempts one delivery per
registered connection except those matching a non-empty exclusion (an empty
or absent exclusion excludes nobody, by Python truthiness): each non-excluded
non-failing handle receives the message exactly once (in room order), each
non-excluded failing handle receives nothing and is removed from the room's
registry entry, excluded and non-failing registrations survive in order, and
every other room's entry is untouched. -/
theorem C2_broadcast_delivers (failSet : Handle → Bool) (reg : Registry)
    (meeting_code : String) (m : OutMsg) (ex : Option String) (conns : RoomConns)
    (hget : dictGet reg meeting_code = some conns)
    (hkeys : (conns.map Prod.fst).Nodup)
    (hhandles : (conns.map Prod.snd).Nodup) :
    (broadcast_to_meeting failSet reg meeting_code m ex).2 =
      (conns.filter (fun p => !(excludeB ex p.1) && !(failSet p.2))).map
        (fun p => (p.2, m))
    ∧ dictGet (broadcast_to_meeting failSet reg meeting_code m ex).1 meeting_code =
      some (conns.filter (fun p => excludeB ex p.1 || !(failSet p.2)))
    ∧ (∀ k, k ≠ meeting_code →
      dictGet (broadcast_to_meeting failSet reg meeting_code m ex).1 k =
        dictGet reg k)
    ∧ ∀ p ∈ conns,
      deliveredTo p.2 (broadcast_to_meeting failSet reg meeting_code m ex).2 =
        if excludeB ex p.1 || failSet p.2 then [] else [m] := by
  obtain ⟨h1, h2, h3⟩ := broadcast_spec failSet m ex hget hkeys
  refine ⟨h1, h2, h3, ?_⟩
  intro p hp
  rw [h1, deliveredTo_map_snd, List.countP_filter]
  have hc := countP_handle (fun q => !(excludeB ex q.1) && !(failSet q.2))
    conns hhandles p hp
  rw [hc]
  cases hex : excludeB ex p.1 <;> cases hf : failSet p.2 <;> simp [hex, hf]

/-- C2 witness: the amended broadcast theorem applied to a concrete room with
clients a (failing handle 3) and b (healthy handle 7), excluding a. -/
theorem C2_broadcast_delivers_witness :
    (broadcast_to_meeting (fun h => h == 3) [("R", [("a", 3), ("b", 7)])] "R"
        (OutMsg.userLeft "x" 0) (some "b")).2 =
      ([("a", 3)].filter (fun p =>
          !(excludeB (some "b") p.1) && !((fun h => h == 3) p.2))).map
        (fun p => (p.2, OutMsg.userLeft "x" 0)) ∧ True := by
  refine ⟨?_, trivial⟩
  have hres := C2_broadcast_delivers (fun h => h == 3) [("R", [("a", 3), ("b", 7)])]
    "R" (OutMsg.userLeft "x" 0) (some "b") [("a", 3), ("b", 7)]
    (by decide) (by decide) (by decide)
  rw [hres.1]
  decide

/-- C4: on disconnect, when exactly one participant row carries the client id,
that row is marked inactive with the leave timestamp and a leave audit row is
appended; a persistence failure is swallowed (database untouched, identical
registry cleanup, broadcast and chat state); the client's handle is removed
from the room's registry entry; if the room is then empty its entry is removed
and nothing is broadcast, otherwise the remaining connections each receive
user-left carrying the departing client id; and the chat buffer is unchanged
in every case. -/
theorem C4_disconnect_cleanup (st : SysState) (meeting_code cid : String)
    (now : Nat) (conns : RoomConns) (p : ParticipantRow)
    (hget : dictGet st.active_connections meeting_code = some conns)
    (hone : clientMatches st.db cid = [p]) :
    ((handle_disconnect (fun _ => false) st meeting_code cid false now).db.participants =
      st.db.participants.map (fun q =>
        if q.rowId == p.rowId then { q with is_active := false, left_at := some now }
        else q)
    ∧ (handle_disconnect (fun _ => false) st meeting_code cid false now).db.logs =
      st.db.logs ++ [⟨p.meeting_id, some p.rowId, "leave"⟩])
    ∧ ((handle_disconnect (fun _ => false) st meeting_code cid true now).db = st.db
    ∧ (handle_disconnect (fun _ => false) st meeting_code cid true now).active_connections =
      (handle_disconnect (fun _ => false) st meeting_code cid false now).active_connections
    ∧ (handle_disconnect (fun _ => false) st meeting_code cid true now).trace =
      (handle_disconnect (fun _ => false) st meeting_code cid false now).trace
    ∧ (handle_disconnect (fun _ => false) st meeting_code cid true now).chat_messages =
      (handle_disconnect (fun _ => false) st meeting_code cid false now).chat_messages)
    ∧ ((conns.filter (fun q => q.1 != cid)).isEmpty = true →
        dictGet (handle_disconnect (fun _ => false) st meeting_code cid false now).active_connections
          meeting_code = none
        ∧ (handle_disconnect (fun _ => false) st meeting_code cid false now).trace = st.trace)
    ∧ ((conns.filter (fun q => q.1 != cid)).isEmpty = false →
        dictGet (handle_disconnect (fun _ => false) st meeting_code cid false now).active_connections
          meeting_code = some (conns.filter (fun q => q.1 != cid))
        ∧ (handle_disconnect (fun _ => false) st meeting_code cid false now).trace =
          st.trace ++ (conns.filter (fun q => q.1 != cid)).map
            (fun q => (q.2, OutMsg.userLeft cid now)))
    ∧ (handle_disconnect (fun _ => false) st meeting_code cid false now).chat_messages =
      st.chat_messages := by
  have hcont : dictContains st.active_connections meeting_code = true :=
    dictContains_of_get hget
  have hdb : disconnectDb st.db cid now =
      { st.db with
        participants := st.db.participants.map (fun q =>
          if q.rowId == p.rowId then { q with is_active := false, left_at := some now }
          else q),
        logs := st.db.logs ++ [⟨p.meeting_id, some p.rowId, "leave"⟩] } := by
    unfold disconnectDb
    rw [hone]
    rfl
  have hget1 : dictGet (dictSet st.active_connections meeting_code
      (conns.filter (fun q => q.1 != cid))) meeting_code =
      some (conns.filter (fun q => q.1 != cid)) := dictGet_dictSet_self _ _ _
  have hmain : ∀ dbFail : Bool,
      handle_disconnect (fun _ => false) st meeting_code cid dbFail now =
      (if ((conns.filter (fun q => q.1 != cid)).isEmpty) then
        (⟨if dbFail then st.db else disconnectDb st.db cid now,
          dictPop (dictSet st.active_connections meeting_code
            (conns.filter (fun q => q.1 != cid))) meeting_code,
          st.chat_messages, st.trace⟩ : SysState)
      else
        ⟨if dbFail then st.db else disconnectDb st.db cid now,
          dictSet st.active_connections meeting_code
            (conns.filter (fun q => q.1 != cid)),
          st.chat_messages,
          st.trace ++ (conns.filter (fun q => q.1 != cid)).map
            (fun q => (q.2, OutMsg.userLeft cid now))⟩) := by
    intro dbFail
    unfold handle_disconnect
    rw [hcont]
    simp only [if_true, hget, Option.getD_some, hget1]
    cases hE : ((conns.filter (fun q => q.1 != cid)).isEmpty) with
    | true => simp only [hE, if_true]
    | false =>
      simp only [hE, Bool.false_eq_true, if_false]
      rw [broadcast_nofail (OutMsg.userLeft cid now) none hget1]
      have hall : ((conns.filter (fun q => q.1 != cid)).filter
          (fun q => !(excludeB none q.1))) = conns.filter (fun q => q.1 != cid) := by
        apply List.filter_congr ?_ |>.trans (List.filter_true _)
        intro q _
        rfl
      simp only [hall]
  cases hE : ((conns.filter (fun q => q.1 != cid)).isEmpty) with
  | true =>
    simp only [hmain true, hmain false, hE, if_true]
    refine ⟨⟨?_, ?_⟩, ⟨trivial, trivial, trivial, trivial⟩,
      fun _ => ⟨dictGet_dictPop_self _ _, trivial⟩,
      fun hcontra => Bool.noConfusion hcontra, trivial⟩
    · simp only [Bool.false_eq_true, if_false]
      rw [hdb]
    · simp only [Bool.false_eq_true, if_false]
      rw [hdb]
  | false =>
    simp only [hmain true, hmain false, hE, Bool.false_eq_true, if_false, if_true]
    refine ⟨⟨?_, ?_⟩, ⟨trivial, trivial, trivial, trivial⟩,
      fun hcontra => False.elim hcontra,
      fun _ => ⟨hget1, trivial⟩, trivial⟩
    · rw [hdb]
    · rw [hdb]

/-- C4 witness: disconnecting client B from a two-member room — the row is
deactivated with a leave audit, B's handle is removed, and A receives
user-left. -/
theorem C4_disconnect_cleanup_witness :
    (handle_disconnect (fun _ => false)
      ⟨⟨[⟨"m1", "R"⟩], [⟨1, "m1", "A", none, true, true, true, true, false, none⟩,
          ⟨2, "m1", "B", none, true, false, true, true, false, none⟩], []⟩,
        [("R", [("A", 0), ("B", 1)])], [("R", [])], []⟩
      "R" "B" false 7).db.participants =
      [⟨1, "m1", "A", none, true, true, true, true, false, none⟩,
       ⟨2, "m1", "B", none, false, false, true, true, false, some 7⟩] ∧ True := by
  have hres := C4_disconnect_cleanup
    ⟨⟨[⟨"m1", "R"⟩], [⟨1, "m1", "A", none, true, true, true, true, false, none⟩,
        ⟨2, "m1", "B", none, true, false, true, true, false, none⟩], []⟩,
      [("R", [("A", 0), ("B", 1)])], [("R", [])], []⟩
    "R" "B" 7 [("A", 0), ("B", 1)]
    ⟨2, "m1", "B", none, true, false, true, true, false, none⟩
    (by decide) (by decide)
  refine ⟨?_, trivial⟩
  rw [hres.1.1]
  decide

/-- C5: a point-to-point signal (offer, answer, ice-candidate) with no
`target` field is dropped with a logged warning (the Bool flag), no exception,
no delivery, and no error reply to the sender; and when the room or the target
client is absent from the registry, forwarding is a silent no-op — no error
raised, no delivery, state unchanged. -/
theorem C5_forward_silent_noop (failSet : Handle → Bool) (st : SysState)
    (meeting_code from_client : String) (mtype mdata : Option String) :
    handle_webrtc_signal failSet st meeting_code from_client none mtype mdata =
      Except.ok (st, true)
    ∧ (∀ t : String, t ≠ "" →
        dictContains st.active_connections meeting_code = false →
        handle_webrtc_signal failSet st meeting_code from_client (some t) mtype mdata =
          Except.ok (st, false))
    ∧ (∀ t : String, t ≠ "" →
        dictContains ((dictGet st.active_connections meeting_code).getD []) t = false →
        handle_webrtc_signal failSet st meeting_code from_client (some t) mtype mdata =
          Except.ok (st, false)) := by
  refine ⟨rfl, ?_, ?_⟩
  · intro t ht hc
    have ht' : (t == "") = false := by
      simp only [beq_eq_false_iff_ne]
      exact ht
    unfold handle_webrtc_signal
    simp only [ht', Bool.false_eq_true, if_false, hc, Bool.false_and]
  · intro t ht hc
    have ht' : (t == "") = false := by
      simp only [beq_eq_false_iff_ne]
      exact ht
    unfold handle_webrtc_signal
    simp only [ht', Bool.false_eq_true, if_false, hc, Bool.and_false]

/-- C5 witness: a signal without a target, one aimed at an unregistered room,
and one aimed at an absent client in a registered room, all from client A in a
room holding only A. -/
theorem C5_forward_silent_noop_witness :
    handle_webrtc_signal (fun _ => false)
      ⟨⟨[], [], []⟩, [("R", [("A", 0)])], [], []⟩ "R" "A" none (some "offer") none =
      Except.ok (⟨⟨[], [], []⟩, [("R", [("A", 0)])], [], []⟩, true)
    ∧ handle_webrtc_signal (fun _ => false)
      ⟨⟨[], [], []⟩, [("R", [("A", 0)])], [], []⟩ "S" "A" (some "B") (some "offer") none =
      Except.ok (⟨⟨[], [], []⟩, [("R", [("A", 0)])], [], []⟩, false)
    ∧ handle_webrtc_signal (fun _ => false)
      ⟨⟨[], [], []⟩, [("R", [("A", 0)])], [], []⟩ "R" "A" (some "B") (some "offer") none =
      Except.ok (⟨⟨[], [], []⟩, [("R", [("A", 0)])], [], []⟩, false) := by
  have hres := C5_forward_silent_noop (fun _ => false)
    ⟨⟨[], [], []⟩, [("R", [("A", 0)])], [], []⟩ "R" "A" (some "offer") none
  have hres2 := C5_forward_silent_noop (fun _ => false)
    ⟨⟨[], [], []⟩, [("R", [("A", 0)])], [], []⟩ "S" "A" (some "offer") none
  exact ⟨hres.1, hres2.2.1 "B" (by decide) (by decide),
    hres.2.2 "B" (by decide) (by decide)⟩

/-- C7: a connection attempt on an unknown meeting code is closed with the
policy-violation code 1008 before any participant row is created or any
handle registered, and a persistence failure while creating the participant
record closes with the internal-error code 1011 with nothing registered; in
both refusal cases the returned state is the original one, so database,
registry and chat buffer are unchanged. -/
theorem C7_setup_refusal (failSet : Handle → Bool) (st : SysState)
    (meeting_code client_id : String) (h : Handle) (rid : Nat)
    (dnFail pdFail : Bool) (now : Nat) (inputs : List Inbound) :
    (st.db.meetings.filter (fun m => m.code == meeting_code) = [] →
      ∀ dbFail : Bool,
      handle_websocket failSet st meeting_code client_id h rid dbFail dnFail
        pdFail now inputs = (st, some 1008))
    ∧ (∀ meeting : MeetingRow,
        st.db.meetings.filter (fun m => m.code == meeting_code) = [meeting] →
        handle_websocket failSet st meeting_code client_id h rid true dnFail
          pdFail now inputs = (st, some 1011)) := by
  constructor
  · intro hempty dbFail
    unfold handle_websocket websocket_setup
    rw [hempty]
    rfl
  · intro meeting hone
    unfold handle_websocket websocket_setup
    rw [hone]
    rfl

/-- C7 witness: refusal on an unknown code, and refusal on a persistence
failure for an existing meeting, from an empty starting state. -/
theorem C7_setup_refusal_witness :
    handle_websocket (fun _ => false) ⟨⟨[], [], []⟩, [], [], []⟩ "nosuchroom"
      "A" 0 1 false false false 0 [] = (⟨⟨[], [], []⟩, [], [], []⟩, some 1008)
    ∧ handle_websocket (fun _ => false) ⟨⟨[⟨"m1", "R"⟩], [], []⟩, [], [], []⟩ "R"
      "A" 0 1 true false false 0 [] =
      (⟨⟨[⟨"m1", "R"⟩], [], []⟩, [], [], []⟩, some 1011) :=
  ⟨(C7_setup_refusal (fun _ => false) ⟨⟨[], [], []⟩, [], [], []⟩ "nosuchroom"
      "A" 0 1 false false 0 []).1 (by decide) false,
   (C7_setup_refusal (fun _ => false) ⟨⟨[⟨"m1", "R"⟩], [], []⟩, [], [], []⟩ "R"
      "A" 0 1 false false 0 []).2 ⟨"m1", "R"⟩ (by decide)⟩

/-- C8: an in-session persistence failure during a media-flag update (with its
audit write), a display-name update, or a chat audit write leaves the database
rolled back but produces exactly the trace, registry and chat-buffer effects
of the success case — the toggle goes to the whole room, the name update to
the others, the chat echo to the whole room — and the message loop returns
normally, so the connection continues. -/
theorem C8_persistence_failure_still_broadcasts (failSet : Handle → Bool)
    (st : SysState) (meeting_code client_id : String) (e : Option Bool)
    (mt dn : String) (msgText dispName : Option String) (now : Nat) :
    ((handle_media_toggle failSet st meeting_code client_id e mt true).trace =
      (handle_media_toggle failSet st meeting_code client_id e mt false).trace
    ∧ (handle_media_toggle failSet st meeting_code client_id e mt true).active_connections =
      (handle_media_toggle failSet st meeting_code client_id e mt false).active_connections
    ∧ (handle_media_toggle failSet st meeting_code client_id e mt true).chat_messages =
      (handle_media_toggle failSet st meeting_code client_id e mt false).chat_messages
    ∧ (handle_media_toggle failSet st meeting_code client_id e mt true).db = st.db)
    ∧ ((handle_join_message failSet st meeting_code client_id (some dn) true).trace =
      (handle_join_message failSet st meeting_code client_id (some dn) false).trace
    ∧ (handle_join_message failSet st meeting_code client_id (some dn) true).active_connections =
      (handle_join_message failSet st meeting_code client_id (some dn) false).active_connections
    ∧ (handle_join_message failSet st meeting_code client_id (some dn) true).chat_messages =
      (handle_join_message failSet st meeting_code client_id (some dn) false).chat_messages
    ∧ (handle_join_message failSet st meeting_code client_id (some dn) true).db = st.db)
    ∧ ((handle_chat_message failSet st meeting_code client_id msgText dispName true now).trace =
      (handle_chat_message failSet st meeting_code client_id msgText dispName false now).trace
    ∧ (handle_chat_message failSet st meeting_code client_id msgText dispName true now).active_connections =
      (handle_chat_message failSet st meeting_code client_id msgText dispName false now).active_connections
    ∧ (handle_chat_message failSet st meeting_code client_id msgText dispName true now).chat_messages =
      (handle_chat_message failSet st meeting_code client_id msgText dispName false now).chat_messages
    ∧ (handle_chat_message failSet st meeting_code client_id msgText dispName true now).db = st.db)
    ∧ (loopStep failSet st meeting_code client_id
        (Inbound.msg (some WSMessageType.AUDIO_TOGGLE) none none none none e)
        true now =
      Except.ok (handle_media_toggle failSet st meeting_code client_id e "audio" true)
    ∧ loopStep failSet st meeting_code client_id
        (Inbound.msg (some WSMessageType.JOIN) none none none dispName none)
        true now =
      Except.ok (handle_join_message failSet st meeting_code client_id dispName true)
    ∧ loopStep failSet st meeting_code client_id
        (Inbound.msg (some WSMessageType.CHAT_MESSAGE) none none msgText dispName none)
        true now =
      Except.ok (handle_chat_message failSet st meeting_code client_id msgText
        dispName true now)) :=
  ⟨⟨rfl, rfl, rfl, rfl⟩, ⟨rfl, rfl, rfl, rfl⟩, ⟨rfl, rfl, rfl, rfl⟩,
   ⟨rfl, rfl, rfl⟩⟩

theorem scalar_cases {α : Type} (l : List α) (h : l.length ≠ 1) :
    scalar_one_or_none l = Except.ok none ∨
    scalar_one_or_none l = Except.error () := by
  cases l with
  | nil => left; rfl
  | cons a t =>
    cases t with
    | nil => exact absurd rfl h
    | cons b u => right; rfl

/-- C9 (implicit behavior): the display-name update, media-toggle persistence,
disconnect deactivation and chat audit write all look the participant up by
client id alone — `clientMatches` carries no meeting or active-flag filter —
so a participant row is changed only when exactly one row in the whole store
matches the client id; on zero or several matches the participant table is
untouched while the broadcast (and, for disconnect, the registry cleanup)
still proceeds; and a unique match is updated even though nothing ties it to
the handler's room. -/
theorem C9_unscoped_client_lookup (failSet : Handle → Bool) (st : SysState)
    (meeting_code client_id : String) (e : Option Bool) (mt dn : String)
    (msgText dispName : Option String) (now : Nat) :
    ((clientMatches st.db client_id).length ≠ 1 →
      (handle_media_toggle failSet st meeting_code client_id e mt false).db = st.db)
    ∧ ((clientMatches st.db client_id).length ≠ 1 →
      (handle_join_message failSet st meeting_code client_id (some dn) false).db = st.db)
    ∧ ((clientMatches st.db client_id).length ≠ 1 →
      (handle_disconnect failSet st meeting_code client_id false now).db = st.db)
    ∧ (handle_chat_message failSet st meeting_code client_id msgText dispName
        false now).db.participants = st.db.participants
    ∧ (handle_media_toggle failSet st meeting_code client_id e mt false).trace =
      st.trace ++ (broadcast_to_meeting failSet st.active_connections meeting_code
        (OutMsg.mediaToggle (if mt == "audio" then WSMessageType.AUDIO_TOGGLE
          else WSMessageType.VIDEO_TOGGLE) client_id (e.getD true)) none).2
    ∧ (handle_join_message failSet st meeting_code client_id (some dn) false).trace =
      st.trace ++ (broadcast_to_meeting failSet st.active_connections meeting_code
        (OutMsg.nameUpdate client_id dn) (some client_id)).2
    ∧ ((handle_disconnect failSet st meeting_code client_id true now).active_connections =
        (handle_disconnect failSet st meeting_code client_id false now).active_connections
      ∧ (handle_disconnect failSet st meeting_code client_id true now).trace =
        (handle_disconnect failSet st meeting_code client_id false now).trace)
    ∧ (∀ p : ParticipantRow, clientMatches st.db client_id = [p] →
        (handle_join_message failSet st meeting_code client_id (some dn) false).db.participants =
          st.db.participants.map (fun q =>
            if q.rowId == p.rowId then { q with display_name := some dn } else q)) := by
  refine ⟨?_, ?_, ?_, ?_, rfl, rfl, ⟨?_, ?_⟩, ?_⟩
  · intro hne
    rcases scalar_cases _ hne with hsc | hsc <;>
      simp only [handle_media_toggle, hsc, Bool.false_eq_true, if_false]
  · intro hne
    rcases scalar_cases _ hne with hsc | hsc <;>
      simp only [handle_join_message, hsc, Bool.false_eq_true, if_false]
  · intro hne
    have hd : disconnectDb st.db client_id now = st.db := by
      rcases scalar_cases _ hne with hsc | hsc <;>
        simp only [disconnectDb, hsc]
    unfold handle_disconnect
    rw [hd]
    simp only [Bool.false_eq_true, if_false]
    split
    · split <;> rfl
    · rfl
  · unfold handle_chat_message
    simp only
    cases hl : scalar_one_or_none
        (st.db.meetings.filter (fun m => m.code == meeting_code)) with
    | error a => simp [log_chat_message, hl]
    | ok mo =>
      cases mo with
      | none => simp [log_chat_message, hl]
      | some meeting =>
        cases hp : scalar_one_or_none (clientMatches st.db client_id) with
        | error a => simp [log_chat_message, hl, hp]
        | ok po => simp [log_chat_message, hl, hp]
  · unfold handle_disconnect
    simp only [Bool.false_eq_true, if_false, eq_self_iff_true, if_true]
    split
    · split <;> rfl
    · rfl
  · unfold handle_disconnect
    simp only [Bool.false_eq_true, if_false, eq_self_iff_true, if_true]
    split
    · split <;> rfl
    · rfl
  · intro p hone
    simp only [handle_join_message, hone, Bool.false_eq_true, if_false,
      scalar_one_or_none]

/-- C9 witness: a store holding two rows for client dup (so the media-toggle,
name-update and disconnect persistence steps do nothing) and a single row for
client solo in another meeting (so the name update hits it). -/
theorem C9_unscoped_client_lookup_witness :
    (handle_media_toggle (fun _ => false)
      ⟨⟨[⟨"m1", "R"⟩], [⟨1, "m1", "dup", none, true, true, true, true, false, none⟩,
          ⟨2, "m2", "dup", none, true, false, true, true, false, none⟩,
          ⟨3, "m2", "solo", none, true, false, true, true, false, none⟩], []⟩,
        [("R", [("dup", 0)])], [], []⟩
      "R" "dup" (some false) "audio" false).db =
      ⟨[⟨"m1", "R"⟩], [⟨1, "m1", "dup", none, true, true, true, true, false, none⟩,
          ⟨2, "m2", "dup", none, true, false, true, true, false, none⟩,
          ⟨3, "m2", "solo", none, true, false, true, true, false, none⟩], []⟩
    ∧ (handle_join_message (fun _ => false)
      ⟨⟨[⟨"m1", "R"⟩], [⟨1, "m1", "dup", none, true, true, true, true, false, none⟩,
          ⟨2, "m2", "dup", none, true, false, true, true, false, none⟩,
          ⟨3, "m2", "solo", none, true, false, true, true, false, none⟩], []⟩,
        [("R", [("dup", 0)])], [], []⟩
      "R" "solo" (some "Sol") false).db.participants =
      [⟨1, "m1", "dup", none, true, true, true, true, false, none⟩,
       ⟨2, "m2", "dup", none, true, false, true, true, false, none⟩,
       ⟨3, "m2", "solo", some "Sol", true, false, true, true, false, none⟩] := by
  constructor
  · exact (C9_unscoped_client_lookup (fun _ => false)
      ⟨⟨[⟨"m1", "R"⟩], [⟨1, "m1", "dup", none, true, true, true, true, false, none⟩,
          ⟨2, "m2", "dup", none, true, false, true, true, false, none⟩,
          ⟨3, "m2", "solo", none, true, false, true, true, false, none⟩], []⟩,
        [("R", [("dup", 0)])], [], []⟩
      "R" "dup" (some false) "audio" "x" none none 0).1 (by decide)
  · have hres := (C9_unscoped_client_lookup (fun _ => false)
      ⟨⟨[⟨"m1", "R"⟩], [⟨1, "m1", "dup", none, true, true, true, true, false, none⟩,
          ⟨2, "m2", "dup", none, true, false, true, true, false, none⟩,
          ⟨3, "m2", "solo", none, true, false, true, true, false, none⟩], []⟩,
        [("R", [("dup", 0)])], [], []⟩
      "R" "solo" none "audio" "Sol" none none 0).2.2.2.2.2.2.2
      ⟨3, "m2", "solo", none, true, false, true, true, false, none⟩ (by decide)
    rw [hres]
    decide

/-- C10 (implicit behavior): an audio or video toggle with no `enabled` field
is treated as enabled=true, and the toggle broadcast — sent to the whole room
with no exclusion, so the sender included, carrying the client id and the
boolean — goes out even when no participant row matches the sender, in which
case neither the participant table nor the audit log is written. -/
theorem C10_media_toggle_defaults (failSet : Handle → Bool) (st : SysState)
    (meeting_code client_id mt : String) :
    (handle_media_toggle failSet st meeting_code client_id none mt false).trace =
      st.trace ++ (broadcast_to_meeting failSet st.active_connections meeting_code
        (OutMsg.mediaToggle (if mt == "audio" then WSMessageType.AUDIO_TOGGLE
          else WSMessageType.VIDEO_TOGGLE) client_id true) none).2
    ∧ (∀ conns : RoomConns,
        dictGet st.active_connections meeting_code = some conns →
        (handle_media_toggle (fun _ => false) st meeting_code client_id none mt
          false).trace =
        st.trace ++ conns.map (fun p =>
          (p.2, OutMsg.mediaToggle (if mt == "audio" then WSMessageType.AUDIO_TOGGLE
            else WSMessageType.VIDEO_TOGGLE) client_id true)))
    ∧ (clientMatches st.db client_id = [] →
        (handle_media_toggle failSet st meeting_code client_id none mt false).db =
          st.db) := by
  refine ⟨rfl, ?_, ?_⟩
  · intro conns hget
    show st.trace ++ (broadcast_to_meeting (fun _ => false) st.active_connections
      meeting_code (OutMsg.mediaToggle (if mt == "audio" then
        WSMessageType.AUDIO_TOGGLE else WSMessageType.VIDEO_TOGGLE) client_id
        (Option.getD none true)) none).2 = _
    rw [broadcast_nofail _ none hget]
    have hall : (conns.filter (fun p => !(excludeB none p.1))) = conns :=
      (List.filter_congr (fun q _ => rfl)).trans (List.filter_true _)
    rw [hall]
    rfl
  · intro hempty
    simp only [handle_media_toggle, hempty, Bool.false_eq_true, if_false,
      scalar_one_or_none]

/-- C10 witness: an audio toggle with no enabled field from client ghost, who
has no participant row, in a room holding ghost and A — both receive
enabled=true and the database is untouched. -/
theorem C10_media_toggle_defaults_witness :
    (handle_media_toggle (fun _ => false)
      ⟨⟨[⟨"m1", "R"⟩], [], []⟩, [("R", [("ghost", 0), ("A", 1)])], [], []⟩
      "R" "ghost" none "audio" false).trace =
      [] ++ [("ghost", 0), ("A", 1)].map (fun p =>
        (p.2, OutMsg.mediaToggle (if "audio" == "audio" then
          WSMessageType.AUDIO_TOGGLE else WSMessageType.VIDEO_TOGGLE) "ghost" true))
    ∧ (handle_media_toggle (fun _ => false)
      ⟨⟨[⟨"m1", "R"⟩], [], []⟩, [("R", [("ghost", 0), ("A", 1)])], [], []⟩
      "R" "ghost" none "audio" false).db = ⟨[⟨"m1", "R"⟩], [], []⟩ :=
  ⟨(C10_media_toggle_defaults (fun _ => false)
      ⟨⟨[⟨"m1", "R"⟩], [], []⟩, [("R", [("ghost", 0), ("A", 1)])], [], []⟩
      "R" "ghost" "audio").2.1 [("ghost", 0), ("A", 1)] (by decide),
   (C10_media_toggle_defaults (fun _ => false)
      ⟨⟨[⟨"m1", "R"⟩], [], []⟩, [("R", [("ghost", 0), ("A", 1)])], [], []⟩
      "R" "ghost" "audio").2.2 (by decide)⟩

/-- C6, counterexample.  The claim asserts a malformed inbound message never
terminates the connection.  It does: `json.loads` raising propagates out of
the message loop to the outer `except` (websocket.py line 185), and the
`finally` runs `handle_disconnect` — here client B of a two-member room sends
one malformed frame and ends up deregistered, marked inactive with a leave
audit row, while A receives user-left. -/
theorem C6_malformed_terminates_counterexample :
    messageLoop (fun _ => false)
      ⟨⟨[⟨"m1", "R"⟩], [⟨1, "m1", "A", none, true, true, true, true, false, none⟩,
          ⟨2, "m1", "B", none, true, false, true, true, false, none⟩], []⟩,
        [("R", [("A", 0), ("B", 1)])], [("R", [])], []⟩
      "R" "B" [Inbound.malformed] 7 =
    ⟨⟨[⟨"m1", "R"⟩], [⟨1, "m1", "A", none, true, true, true, true, false, none⟩,
        ⟨2, "m1", "B", none, false, false, true, true, false, some 7⟩],
        [⟨"m1", some 2, "leave"⟩]⟩,
      [("R", [("A", 0)])], [("R", [])], [(0, OutMsg.userLeft "B" 7)]⟩ := by
  decide

/-- C6, amended: an inbound message whose kind is unknown is dropped — no
handler runs, the state is unchanged, the loop continues with the participant
still registered and active (the source logs the type at info level, not as a
warning); but a message whose content cannot be parsed raises inside the loop,
which terminates the connection and runs the disconnect cleanup. -/
theorem C6_unknown_kind_dropped (failSet : Handle → Bool) (st : SysState)
    (meeting_code client_id : String) (mtype : Option String)
    (target mdata msgText dispName : Option String) (enabled : Option Bool)
    (pFail : Bool) (now : Nat)
    (hunknown : ∀ s ∈ [WSMessageType.OFFER, WSMessageType.ANSWER,
      WSMessageType.ICE_CANDIDATE, WSMessageType.CHAT_MESSAGE, WSMessageType.JOIN,
      WSMessageType.AUDIO_TOGGLE, WSMessageType.VIDEO_TOGGLE,
      WSMessageType.SCREEN_SHARE_START, WSMessageType.SCREEN_SHARE_STOP],
      mtype ≠ some s) :
    loopStep failSet st meeting_code client_id
      (Inbound.msg mtype target mdata msgText dispName enabled) pFail now =
      Except.ok st
    ∧ loopStep failSet st meeting_code client_id Inbound.malformed pFail now =
      Except.error () := by
  have hb : ∀ s ∈ [WSMessageType.OFFER, WSMessageType.ANSWER,
      WSMessageType.ICE_CANDIDATE, WSMessageType.CHAT_MESSAGE, WSMessageType.JOIN,
      WSMessageType.AUDIO_TOGGLE, WSMessageType.VIDEO_TOGGLE,
      WSMessageType.SCREEN_SHARE_START, WSMessageType.SCREEN_SHARE_STOP],
      (mtype == some s) = false := by
    intro s hs
    simp only [beq_eq_false_iff_ne]
    exact hunknown s hs
  have h1 := hb WSMessageType.OFFER (by decide)
  have h2 := hb WSMessageType.ANSWER (by decide)
  have h3 := hb WSMessageType.ICE_CANDIDATE (by decide)
  have h4 := hb WSMessageType.CHAT_MESSAGE (by decide)
  have h5 := hb WSMessageType.JOIN (by decide)
  have h6 := hb WSMessageType.AUDIO_TOGGLE (by decide)
  have h7 := hb WSMessageType.VIDEO_TOGGLE (by decide)
  have h8 := hb WSMessageType.SCREEN_SHARE_START (by decide)
  have h9 := hb WSMessageType.SCREEN_SHARE_STOP (by decide)
  refine ⟨?_, rfl⟩
  unfold loopStep
  simp only [h1, h2, h3, h4, h5, h6, h7, h8, h9, Bool.or_self,
    Bool.false_eq_true, if_false]

/-- C6 witness: a message of the unknown kind bogus is dropped with the state
unchanged, from a one-member room. -/
theorem C6_unknown_kind_dropped_witness :
    loopStep (fun _ => false)
      ⟨⟨[⟨"m1", "R"⟩], [], []⟩, [("R", [("A", 0)])], [("R", [])], []⟩
      "R" "A" (Inbound.msg (some "bogus") none none none none none) false 3 =
      Except.ok ⟨⟨[⟨"m1", "R"⟩], [], []⟩, [("R", [("A", 0)])], [("R", [])], []⟩
    ∧ loopStep (fun _ => false)
      ⟨⟨[⟨"m1", "R"⟩], [], []⟩, [("R", [("A", 0)])], [("R", [])], []⟩
      "R" "A" Inbound.malformed false 3 = Except.error () :=
  C6_unknown_kind_dropped (fun _ => false)
    ⟨⟨[⟨"m1", "R"⟩], [], []⟩, [("R", [("A", 0)])], [("R", [])], []⟩
    "R" "A" (some "bogus") none none none none none false 3 (by decide)

theorem filter_excludeB_none (conns : RoomConns) :
    conns.filter (fun p => !(excludeB none p.1)) = conns :=
  (List.filter_congr (fun _ _ => rfl)).trans (List.filter_true _)

theorem chat_step_regtrace (s : SysState) (meeting_code from_client : String)
    (msgText dispName : Option String) (pFail : Bool) (now : Nat)
    (conns : RoomConns)
    (hs : dictGet s.active_connections meeting_code = some conns) :
    (handle_chat_message (fun _ => false) s meeting_code from_client msgText
      dispName pFail now).active_connections = s.active_connections
    ∧ (handle_chat_message (fun _ => false) s meeting_code from_client msgText
      dispName pFail now).trace =
      s.trace ++ conns.map (fun p =>
        (p.2, OutMsg.chatMessage (mkChatData from_client msgText dispName now))) := by
  simp only [handle_chat_message]
  rw [broadcast_nofail _ none hs, filter_excludeB_none]
  exact ⟨rfl, rfl⟩

/-- C3: a client completing the join transition over a room whose chat buffer
holds K events receives first a chat-history message with exactly those K
events in receipt order, then the participants-update carrying the registered
client list with each member's media and display flags, and only afterwards
one chat-message per subsequent live chat, in order, under the sequential
(no-delivery-failure) schedule with a fresh client id and handle. -/
theorem C3_join_history_then_participants (st0 : SysState) (meeting : MeetingRow)
    (cid : String) (h : Handle) (now : Nat) (buffer : List ChatData)
    (conns0 : RoomConns) (lives : List (String × Option String × Option String))
    (hget : dictGet st0.active_connections meeting.code = some conns0)
    (hchat : dictGet st0.chat_messages meeting.code = some buffer)
    (hcid : ∀ p ∈ conns0, p.1 ≠ cid)
    (hh : ∀ p ∈ conns0, p.2 ≠ h)
    (htr : deliveredTo h st0.trace = [])
    (hcne : cid ≠ "") :
    deliveredTo h ((lives.foldl (fun s l =>
        handle_chat_message (fun _ => false) s meeting.code l.1 l.2.1 l.2.2 false now)
      (registerAndGreet (fun _ => false) st0 meeting cid h false false now)).trace) =
    OutMsg.chatHistory buffer ::
    OutMsg.participantsUpdate ((conns0 ++ [(cid, h)]).map Prod.fst)
      (participantsData st0.db meeting.id ((conns0 ++ [(cid, h)]).map Prod.fst) false) ::
    lives.map (fun l => OutMsg.chatMessage (mkChatData l.1 l.2.1 l.2.2 now)) := by
  have hconns_set : dictSet conns0 cid h = conns0 ++ [(cid, h)] :=
    dictSet_fresh h hcid
  have hreg1get : dictGet (dictSet st0.active_connections meeting.code
      (conns0 ++ [(cid, h)])) meeting.code = some (conns0 ++ [(cid, h)]) :=
    dictGet_dictSet_self _ _ _
  have hchatcont : dictContains st0.chat_messages meeting.code = true :=
    dictContains_of_get hchat
  have hsingle : ∀ m : OutMsg, deliveredTo h [(h, m)] = [m] := by
    intro m
    simp [deliveredTo]
  have hJ : ∀ msg : OutMsg, deliveredTo h
      (((conns0 ++ [(cid, h)]).filter (fun p => !(excludeB (some cid) p.1))).map
        (fun p => (p.2, msg))) = [] := by
    intro msg
    rw [deliveredTo_map_snd, List.countP_filter]
    have hz : List.countP (fun p => (p.2 == h) && !(excludeB (some cid) p.1))
        (conns0 ++ [(cid, h)]) = 0 := by
      rw [List.countP_eq_zero]
      intro p hp hcontra
      simp only [Bool.and_eq_true, beq_iff_eq, Bool.not_eq_true'] at hcontra
      rcases List.mem_append.mp hp with hp0 | hp1
      · exact hh p hp0 hcontra.1
      · have hpc : p = (cid, h) := by simpa using hp1
        rw [hpc] at hcontra
        have : excludeB (some cid) cid = true := by
          unfold excludeB
          have : (cid == "") = false := by
            simp only [beq_eq_false_iff_ne]
            exact hcne
          simp [this]
        rw [this] at hcontra
        exact absurd hcontra.2 (by decide)
    rw [hz]
    rfl
  have hcount1 : List.countP (fun p => p.2 == h) (conns0 ++ [(cid, h)]) = 1 := by
    rw [List.countP_append]
    have h0 : List.countP (fun p => p.2 == h) conns0 = 0 := by
      rw [List.countP_eq_zero]
      intro p hp hc
      exact hh p hp (by simpa using hc)
    rw [h0]
    simp
  have hlive : ∀ (ls : List (String × Option String × Option String)) (s : SysState),
      dictGet s.active_connections meeting.code = some (conns0 ++ [(cid, h)]) →
      deliveredTo h ((ls.foldl (fun s l =>
          handle_chat_message (fun _ => false) s meeting.code l.1 l.2.1 l.2.2
            false now) s).trace) =
        deliveredTo h s.trace ++
        ls.map (fun l => OutMsg.chatMessage (mkChatData l.1 l.2.1 l.2.2 now)) := by
    intro ls
    induction ls with
    | nil => intro s hs; simp
    | cons l ls ih =>
      intro s hs
      rw [List.foldl_cons]
      obtain ⟨hr, ht⟩ := chat_step_regtrace s meeting.code l.1 l.2.1 l.2.2 false
        now (conns0 ++ [(cid, h)]) hs
      rw [ih _ (by rw [hr]; exact hs)]
      rw [ht, deliveredTo_append, deliveredTo_map_snd, hcount1]
      simp
  rw [hlive lives (registerAndGreet (fun _ => false) st0 meeting cid h false
    false now) ?hreg]
  case hreg =>
    simp only [registerAndGreet, send_participants_update, hget, Option.getD_some,
      hconns_set]
    rw [broadcast_nofail _ (some cid) hreg1get]
    exact hreg1get
  have htr1 : deliveredTo h ((registerAndGreet (fun _ => false) st0 meeting cid h
      false false now).trace) =
      [OutMsg.chatHistory buffer,
       OutMsg.participantsUpdate ((conns0 ++ [(cid, h)]).map Prod.fst)
         (participantsData st0.db meeting.id ((conns0 ++ [(cid, h)]).map Prod.fst)
           false)] := by
    simp only [registerAndGreet, send_participants_update, hget, Option.getD_some,
      hconns_set, hchatcont, if_true, hchat]
    rw [broadcast_nofail _ (some cid) hreg1get]
    simp only [hreg1get, Option.getD_some]
    rw [deliveredTo_append, deliveredTo_append, deliveredTo_append]
    rw [htr, hJ, hsingle, hsingle]
    rfl
  rw [htr1]
  rfl

/-- C3 witness: client B joins room R, whose buffer already holds one chat
event, next to A; then A sends one live chat.  B receives the history, the
participant list and the live chat, in that order. -/
theorem C3_join_history_then_participants_witness :
    deliveredTo 1 (([(("A" : String), (some "hi" : Option String),
        (some "Al" : Option String))].foldl (fun s l =>
        handle_chat_message (fun _ => false) s (MeetingRow.mk "m1" "R").code
          l.1 l.2.1 l.2.2 false 5)
      (registerAndGreet (fun _ => false)
        ⟨⟨[⟨"m1", "R"⟩], [], []⟩, [("R", [("A", 0)])],
          [("R", [⟨"A", "hello", "Al", 0⟩])], []⟩
        ⟨"m1", "R"⟩ "B" 1 false false 5)).trace) =
    OutMsg.chatHistory [⟨"A", "hello", "Al", 0⟩] ::
    OutMsg.participantsUpdate (([("A", 0), ("B", 1)] : RoomConns).map Prod.fst)
      (participantsData ⟨[⟨"m1", "R"⟩], [], []⟩ "m1"
        (([("A", 0), ("B", 1)] : RoomConns).map Prod.fst) false) ::
    [OutMsg.chatMessage (mkChatData "A" (some "hi") (some "Al") 5)] :=
  C3_join_history_then_participants
    ⟨⟨[⟨"m1", "R"⟩], [], []⟩, [("R", [("A", 0)])],
      [("R", [⟨"A", "hello", "Al", 0⟩])], []⟩
    ⟨"m1", "R"⟩ "B" 1 5 [⟨"A", "hello", "Al", 0⟩] [("A", 0)]
    [("A", some "hi", some "Al")]
    (by decide) (by decide) (by decide) (by decide) (by decide) (by decide)

end Videoo
